import Mathlib

/-!
Shallow embedding of the real-time delivery subsystem of the serengpty chat
application, and proofs about it.

The embedding covers:
* the server-side connection registry and broadcast dispatcher
  (`api/chat/sse/route.ts`: the `connectedClients` map, the registration in
  `GET`, `cleanupClient`, `sendMessageToUser`);
* the client-side subscriber's reconnection controller, listener registry and
  message dispatch (the `ChatService` class);
* the client-side per-conversation message cache with duplicate detection
  (`ChatProvider.tsx`, `handleNewMessage`);
* the persisted message store operations consumed by the conversation
  aggregator (`chatActions.ts`: `markAsRead`,
  `updateConversationsForUserInternal`).

Connections and listener callbacks are identified by natural numbers standing
for their JavaScript object identity; timestamps are integers in milliseconds;
the outcome of a write to a connection is an environment `fails : ConnId → Bool`
saying which connections' writes throw.
-/

namespace Serengpty

/-! ## Connection registry and broadcast dispatcher (`api/chat/sse/route.ts`) -/

/-- Object identity of a `ResponseSender` closure. -/
abbrev ConnId := Nat

/-- The `connectedClients` map: `Map<string, Set<ResponseSender>>`.
`none` models the key being absent from the map; the list is the insertion
order of the `Set`. -/
abbrev Registry := String → Option (List ConnId)

def emptyRegistry : Registry := fun _ => none

/-- The bucket a broadcast snapshots for a user (empty when the key is absent). -/
def bucketOf (r : Registry) (u : String) : List ConnId :=
  (r u).getD []

/-- Models `Set.add`: JavaScript sets ignore an insertion of an element already present
and otherwise append in insertion order. -/
def setAdd (b : List ConnId) (c : ConnId) : List ConnId :=
  if c ∈ b then b else b ++ [c]

/-- Connection registration in `GET`:
`if (!connectedClients.has(userId)) connectedClients.set(userId, new Set());`
followed by `connectedClients.get(userId)?.add(sendMessage)`. -/
def registerConn (r : Registry) (u : String) (c : ConnId) : Registry :=
  fun v => if v = u then some (setAdd (bucketOf r u) c) else r v

/-- Models `cleanupClient(userId, sendMessage)`: delete the connection from the user's
set, and delete the user's entry when the set becomes empty. -/
def cleanupClient (r : Registry) (u : String) (c : ConnId) : Registry :=
  match r u with
  | none => r
  | some b =>
      let b2 := b.erase c
      if b2 = [] then fun v => if v = u then none else r v
      else fun v => if v = u then some b2 else r v

/-- The underlying write `controller.enqueue(...)` inside the `sendMessage`
closure: it either returns or throws, according to the failure environment. -/
def enqueueWrite (fails : ConnId → Bool) (c : ConnId) : Except String Unit :=
  if fails c then Except.error "enqueue failed" else Except.ok ()

/-- Models the `sendMessage` closure created in `GET`:
`try { controller.enqueue(...) } catch { cleanupClient(userId, sendMessage) }`.
The catch swallows the enqueue failure, so the closure always returns
normally; the boolean records whether the event actually reached the
connection. -/
def sendMessageClosure (fails : ConnId → Bool) (u : String) (c : ConnId) (r : Registry) :
    Registry × Bool :=
  match enqueueWrite fails c with
  | Except.ok _ => (r, true)
  | Except.error _ => (cleanupClient r u c, false)

/-- The `for (const sendMessage of clientsArray)` loop of `sendMessageToUser`:
each iteration calls the `sendMessage` closure, which never throws — so the
loop's own `catch` block is unreachable dead code and `successCount++` runs
for every connection of the snapshot, whether or not its write succeeded.
Returns the registry after the loop, the list of connections the event
actually reached, and the success count. -/
def sendLoop (fails : ConnId → Bool) (u : String) :
    List ConnId → Registry → List ConnId → Nat → Registry × List ConnId × Nat
  | [], r, delivered, cnt => (r, delivered, cnt)
  | c :: rest, r, delivered, cnt =>
      let res := sendMessageClosure fails u c r
      sendLoop fails u rest res.1 (if res.2 then delivered ++ [c] else delivered) (cnt + 1)

/-- Models `sendMessageToUser(userId, message)`.  The `Except` layer records
whether an exception escapes to the caller: the closure catches every enqueue
failure itself, so nothing throws and the result is always `Except.ok`.  The
payload is the registry after the broadcast, the connections the event
actually reached, and the returned boolean `successCount > 0` (with the early
`return false` when the user has no bucket or an empty one). -/
def sendMessageToUser (fails : ConnId → Bool) (r : Registry) (u : String) :
    Except String (Registry × List ConnId × Bool) :=
  match r u with
  | none => Except.ok (r, [], false)
  | some b =>
      if b = [] then Except.ok (r, [], false)
      else
        let res := sendLoop fails u b r [] 0
        Except.ok (res.1, res.2.1, decide (0 < res.2.2))

/-- One external operation on the registry: a stream opening (register) or a
stream closing / failed write (cleanup). -/
inductive RegOp where
  | reg (u : String) (c : ConnId)
  | unreg (u : String) (c : ConnId)

def applyRegOp (r : Registry) : RegOp → Registry
  | RegOp.reg u c => registerConn r u c
  | RegOp.unreg u c => cleanupClient r u c

def applyRegOps (r : Registry) : List RegOp → Registry
  | [] => r
  | op :: ops => applyRegOps (applyRegOp r op) ops

/-- Well-formedness of the `connectedClients` map: every bucket present is a
non-empty duplicate-free set. -/
def RegistryWF (r : Registry) : Prop :=
  ∀ u b, r u = some b → b ≠ [] ∧ b.Nodup

/-! ### Registry lemmas -/

theorem bucketOf_cleanup (r : Registry) (u : String) (c : ConnId) :
    bucketOf (cleanupClient r u c) u = (bucketOf r u).erase c := by
  unfold cleanupClient bucketOf
  cases h : r u with
  | none => simp [h]
  | some b =>
      simp only [h, Option.getD_some]
      by_cases hb : b.erase c = []
      · simp [hb]
      · simp [hb]

theorem cleanup_other (r : Registry) (u : String) (c : ConnId) (v : String)
    (hv : v ≠ u) : cleanupClient r u c v = r v := by
  unfold cleanupClient
  cases h : r u with
  | none => rfl
  | some b =>
      by_cases hb : b.erase c = []
      · simp [hb, hv]
      · simp [hb, hv]

theorem sendLoop_cons_ok (fails : ConnId → Bool) (u : String) (c : ConnId)
    (rest : List ConnId) (r : Registry) (d : List ConnId) (cnt : Nat)
    (hc : fails c = false) :
    sendLoop fails u (c :: rest) r d cnt = sendLoop fails u rest r (d ++ [c]) (cnt + 1) := by
  simp [sendLoop, sendMessageClosure, enqueueWrite, hc]

theorem sendLoop_cons_err (fails : ConnId → Bool) (u : String) (c : ConnId)
    (rest : List ConnId) (r : Registry) (d : List ConnId) (cnt : Nat)
    (hc : fails c = true) :
    sendLoop fails u (c :: rest) r d cnt =
      sendLoop fails u rest (cleanupClient r u c) d (cnt + 1) := by
  simp [sendLoop, sendMessageClosure, enqueueWrite, hc]

theorem sendLoop_registry (fails : ConnId → Bool) (u : String) :
    ∀ (conns : List ConnId) (r : Registry) (d : List ConnId) (cnt : Nat),
      (sendLoop fails u conns r d cnt).1 =
        conns.foldl (fun racc c => if fails c then cleanupClient racc u c else racc) r := by
  intro conns
  induction conns with
  | nil => intro r d cnt; rfl
  | cons c rest ih =>
      intro r d cnt
      by_cases hc : fails c
      · rw [sendLoop_cons_err fails u c rest r d cnt hc, ih]
        simp [hc]
      · rw [sendLoop_cons_ok fails u c rest r d cnt (by simpa using hc), ih]
        simp [hc]

theorem sendLoop_delivered_mono (fails : ConnId → Bool) (u : String) :
    ∀ (conns : List ConnId) (r : Registry) (d : List ConnId) (cnt : Nat),
      d ⊆ (sendLoop fails u conns r d cnt).2.1 := by
  intro conns
  induction conns with
  | nil => intro r d cnt; exact fun x hx => hx
  | cons c rest ih =>
      intro r d cnt
      by_cases hc : fails c
      · rw [sendLoop_cons_err fails u c rest r d cnt hc]
        exact ih _ _ _
      · rw [sendLoop_cons_ok fails u c rest r d cnt (by simpa using hc)]
        exact fun x hx => ih _ _ _ (List.mem_append_left _ hx)

theorem sendLoop_delivered (fails : ConnId → Bool) (u : String) :
    ∀ (conns : List ConnId) (r : Registry) (d : List ConnId) (cnt : Nat) (x : ConnId),
      x ∈ conns → fails x = false → x ∈ (sendLoop fails u conns r d cnt).2.1 := by
  intro conns
  induction conns with
  | nil => intro r d cnt x hx; cases hx
  | cons c rest ih =>
      intro r d cnt x hx hfx
      rcases List.mem_cons.1 hx with rfl | hx'
      · rw [sendLoop_cons_ok fails u x rest r d cnt hfx]
        exact sendLoop_delivered_mono fails u rest r (d ++ [x]) (cnt + 1)
          (List.mem_append_right _ (List.mem_singleton_self x))
      · by_cases hc : fails c
        · rw [sendLoop_cons_err fails u c rest r d cnt hc]
          exact ih _ _ _ x hx' hfx
        · rw [sendLoop_cons_ok fails u c rest r d cnt (by simpa using hc)]
          exact ih _ _ _ x hx' hfx

theorem sendLoop_count (fails : ConnId → Bool) (u : String) :
    ∀ (conns : List ConnId) (r : Registry) (d : List ConnId) (cnt : Nat),
      (sendLoop fails u conns r d cnt).2.2 = cnt + conns.length := by
  intro conns
  induction conns with
  | nil => intro r d cnt; simp [sendLoop]
  | cons c rest ih =>
      intro r d cnt
      by_cases hc : fails c
      · rw [sendLoop_cons_err fails u c rest r d cnt hc, ih]
        simp
        omega
      · rw [sendLoop_cons_ok fails u c rest r d cnt (by simpa using hc), ih]
        simp
        omega

theorem foldl_cleanup_bucket (fails : ConnId → Bool) (u : String) :
    ∀ (l : List ConnId) (r : Registry),
      bucketOf (l.foldl (fun racc c => if fails c then cleanupClient racc u c else racc) r) u =
        l.foldl (fun b c => if fails c then b.erase c else b) (bucketOf r u) := by
  intro l
  induction l with
  | nil => intro r; rfl
  | cons c rest ih =>
      intro r
      simp only [List.foldl_cons]
      by_cases hc : fails c
      · simp [hc, ih, bucketOf_cleanup]
      · simp only [if_neg hc, ih]

theorem mem_foldl_erase_step (fails : ConnId → Bool) :
    ∀ (l : List ConnId) (b : List ConnId) (y : ConnId),
      y ∈ l.foldl (fun b c => if fails c then b.erase c else b) b → y ∈ b := by
  intro l
  induction l with
  | nil => intro b y hy; exact hy
  | cons c rest ih =>
      intro b y hy
      simp only [List.foldl_cons] at hy
      by_cases hc : fails c
      · simp only [hc, if_pos rfl] at hy
        exact List.mem_of_mem_erase (ih _ _ hy)
      · simp only [if_neg hc] at hy
        exact ih _ _ hy

theorem not_mem_foldl_erase (fails : ConnId → Bool) :
    ∀ (l : List ConnId) (b : List ConnId) (x : ConnId), b.Nodup → x ∈ l → fails x = true →
      x ∉ l.foldl (fun b c => if fails c then b.erase c else b) b := by
  intro l
  induction l with
  | nil => intro b x _ hx; cases hx
  | cons c rest ih =>
      intro b x hnd hx hfx
      simp only [List.foldl_cons]
      rcases List.mem_cons.1 hx with rfl | hx'
      · simp only [hfx, if_pos rfl]
        intro hmem
        have hxb : x ∈ b.erase x := mem_foldl_erase_step fails rest _ x hmem
        exact absurd ((hnd.mem_erase_iff).1 hxb).1 (by simp)
      · by_cases hc : fails c
        · simp only [hc, if_pos rfl]
          exact ih _ x (hnd.erase c) hx' hfx
        · simp only [if_neg hc]
          exact ih _ x hnd hx' hfx

/-! ### Claim theorems for the dispatcher and the registry -/

/-- C1: when a write to one of a user's registered connections fails
mid-broadcast, `sendMessageToUser` removes exactly that connection via
`cleanupClient` (it is absent from the bucket the next broadcast would
snapshot), still delivers the event to every connection of the snapshot whose
write succeeds, and returns normally — the per-connection failure is caught and
never escapes to the caller. -/
theorem broadcast_self_healing (fails : ConnId → Bool) (r : Registry) (u : String)
    (b : List ConnId) (c : ConnId)
    (hbucket : r u = some b) (hnodup : b.Nodup) (hc : c ∈ b) (hcfail : fails c = true) :
    ∃ r2 delivered ok, sendMessageToUser fails r u = Except.ok (r2, delivered, ok) ∧
      c ∉ bucketOf r2 u ∧
      (∀ c2 ∈ b, fails c2 = false → c2 ∈ delivered) := by
  have hbne : b ≠ [] := by intro h; rw [h] at hc; cases hc
  refine ⟨(sendLoop fails u b r [] 0).1, (sendLoop fails u b r [] 0).2.1,
    decide (0 < (sendLoop fails u b r [] 0).2.2), ?_, ?_, ?_⟩
  · simp [sendMessageToUser, hbucket, hbne]
  · rw [sendLoop_registry, foldl_cleanup_bucket]
    have hb : bucketOf r u = b := by simp [bucketOf, hbucket]
    rw [hb]
    exact not_mem_foldl_erase fails b b c hnodup hc hcfail
  · intro c2 hc2 hf2
    exact sendLoop_delivered fails u b r [] 0 c2 hc2 hf2

/-- Closed witness for `broadcast_self_healing`: user `"alice"` has two open
connections `1` and `2`; the write to connection `1` fails. -/
theorem broadcast_self_healing_witness :
    ∃ r2 delivered ok,
      sendMessageToUser (fun c => c == 1)
          (registerConn (registerConn emptyRegistry "alice" 1) "alice" 2) "alice" =
        Except.ok (r2, delivered, ok) ∧
      1 ∉ bucketOf r2 "alice" ∧
      (∀ c2 ∈ [1, 2], (fun c => c == 1) c2 = false → c2 ∈ delivered) := by
  have hb : (registerConn (registerConn emptyRegistry "alice" 1) "alice" 2) "alice" =
      some [1, 2] := by decide
  exact broadcast_self_healing (fun c => c == 1)
    (registerConn (registerConn emptyRegistry "alice" 1) "alice" 2) "alice" [1, 2] 1
    hb (by decide) (by decide) (by decide)

/-- C2: at the failing input — user `"alice"` with a single registered
connection `1` whose enqueue throws — `sendMessageToUser` still returns `true`
although the event reached no connection (`delivered = []`, and the bucket was
cleaned up): the `sendMessage` closure swallows the enqueue failure, so the
loop's `catch` never fires and `successCount` counts every connection of the
snapshot.  This contradicts the documented contract "returns true iff at least
one Connection received the event", whose intent the loop's own
catch-and-count structure also shows. -/
theorem send_true_despite_all_writes_failing :
    sendMessageToUser (fun c => c == 1) (registerConn emptyRegistry "alice" 1) "alice" =
      Except.ok (cleanupClient (registerConn emptyRegistry "alice" 1) "alice" 1, [], true) ∧
    bucketOf (cleanupClient (registerConn emptyRegistry "alice" 1) "alice" 1) "alice" = [] := by
  constructor
  · rfl
  · decide

/-- C4: the registry contract. `registerConn` creates the user's bucket if
absent and adds the connection; `cleanupClient` removes the connection and
deletes the bucket exactly when it becomes empty; cleaning up an absent
connection is a no-op; and along every sequence of register/unregister
operations each bucket present in the registry stays non-empty (and
duplicate-free). -/
theorem registry_contract (r : Registry) (u : String) (c : ConnId) (b : List ConnId)
    (hwf : RegistryWF r) :
    (registerConn r u c) u = some (setAdd (bucketOf r u) c) ∧
    c ∈ bucketOf (registerConn r u c) u ∧
    (r u = some b → (cleanupClient r u c) u =
      (if b.erase c = [] then none else some (b.erase c))) ∧
    (r u = none → cleanupClient r u c = r) ∧
    (r u = some b → c ∉ b → cleanupClient r u c = r) ∧
    (∀ ops : List RegOp, RegistryWF (applyRegOps r ops)) := by
  refine ⟨?_, ?_, ?_, ?_, ?_, ?_⟩
  · simp [registerConn]
  · show c ∈ ((registerConn r u c) u).getD []
    simp only [registerConn, if_pos rfl, Option.getD_some, setAdd]
    by_cases hmem : c ∈ bucketOf r u
    · rw [if_pos hmem]; exact hmem
    · rw [if_neg hmem]; exact List.mem_append_right _ (List.mem_singleton_self c)
  · intro hru
    simp only [cleanupClient, hru]
    by_cases he : b.erase c = []
    · simp [he]
    · simp [he]
  · intro hru
    simp [cleanupClient, hru]
  · intro hru hnc
    have he : b.erase c = b := List.erase_of_not_mem hnc
    have hbne : b ≠ [] := (hwf u b hru).1
    funext v
    simp only [cleanupClient, hru, he, if_neg hbne]
    by_cases hv : v = u
    · subst hv; simp [hru]
    · simp [hv]
  · intro ops
    induction ops generalizing r with
    | nil => exact hwf
    | cons op rest ih =>
        apply ih
        cases op with
        | reg u' c' =>
            intro v bv hv
            simp only [applyRegOp, registerConn] at hv
            by_cases hvu : v = u'
            · rw [if_pos hvu] at hv
              have hv' := Option.some.inj hv
              subst hv'
              constructor
              · unfold setAdd
                by_cases hmem : c' ∈ bucketOf r u'
                · rw [if_pos hmem]
                  intro hnil
                  rw [hnil] at hmem
                  cases hmem
                · rw [if_neg hmem]
                  simp
              · have hnd : (bucketOf r u').Nodup := by
                  cases hgd : r u' with
                  | none => simp [bucketOf, hgd]
                  | some bb => simpa [bucketOf, hgd] using (hwf u' bb hgd).2
                unfold setAdd
                by_cases hmem : c' ∈ bucketOf r u'
                · rw [if_pos hmem]
                  exact hnd
                · rw [if_neg hmem]
                  simpa [List.nodup_append] using ⟨hnd, by simpa using hmem⟩
            · rw [if_neg hvu] at hv
              exact hwf v bv hv
        | unreg u' c' =>
            intro v bv hv
            simp only [applyRegOp, cleanupClient] at hv
            cases hgd : r u' with
            | none =>
                rw [hgd] at hv
                exact hwf v bv hv
            | some bb =>
                rw [hgd] at hv
                simp only at hv
                by_cases he : bb.erase c' = []
                · rw [if_pos he] at hv
                  by_cases hvu : v = u'
                  · simp [hvu] at hv
                  · simp only [if_neg hvu] at hv
                    exact hwf v bv hv
                · rw [if_neg he] at hv
                  by_cases hvu : v = u'
                  · rw [if_pos hvu] at hv
                    have hv' := Option.some.inj hv
                    subst hv'
                    exact ⟨he, (hwf u' bb hgd).2.erase c'⟩
                  · simp only [if_neg hvu] at hv
                    exact hwf v bv hv

/-- Closed witness for `registry_contract` at a concrete registry holding one
user `"alice"` with connections `1` and `2`. -/
theorem registry_contract_witness :
    (registerConn (registerConn (registerConn emptyRegistry "alice" 1) "alice" 2) "bob" 3) "bob" =
      some (setAdd (bucketOf (registerConn (registerConn emptyRegistry "alice" 1) "alice" 2) "bob") 3) ∧
    3 ∈ bucketOf (registerConn (registerConn (registerConn emptyRegistry "alice" 1) "alice" 2) "bob" 3) "bob" ∧
    ((registerConn (registerConn emptyRegistry "alice" 1) "alice" 2) "bob" = some [1, 2] →
      (cleanupClient (registerConn (registerConn emptyRegistry "alice" 1) "alice" 2) "bob" 3) "bob" =
        (if ([1, 2] : List ConnId).erase 3 = [] then none else some (([1, 2] : List ConnId).erase 3))) ∧
    ((registerConn (registerConn emptyRegistry "alice" 1) "alice" 2) "bob" = none →
      cleanupClient (registerConn (registerConn emptyRegistry "alice" 1) "alice" 2) "bob" 3 =
        registerConn (registerConn emptyRegistry "alice" 1) "alice" 2) ∧
    ((registerConn (registerConn emptyRegistry "alice" 1) "alice" 2) "bob" = some [1, 2] →
      3 ∉ ([1, 2] : List ConnId) →
      cleanupClient (registerConn (registerConn emptyRegistry "alice" 1) "alice" 2) "bob" 3 =
        registerConn (registerConn emptyRegistry "alice" 1) "alice" 2) ∧
    (∀ ops : List RegOp,
      RegistryWF (applyRegOps (registerConn (registerConn emptyRegistry "alice" 1) "alice" 2) ops)) := by
  apply registry_contract
  intro u b hb
  simp only [registerConn, emptyRegistry, bucketOf] at hb
  by_cases hu : u = "alice"
  · subst hu
    simp at hb
    subst hb
    refine ⟨by decide, by decide⟩
  · simp [hu] at hb

/-! ## Client message cache and deduplicator (`ChatProvider.tsx`, `handleNewMessage`) -/

/-- The client-side `Message` shape (`chatActions.ts`): an optional
server-assigned id, sender, receiver, text, and the creation timestamp in
milliseconds since the epoch (`new Date(msg.created_at).getTime()`). -/
structure ChatMsg where
  id : Option String
  sender_id : String
  receiver_id : String
  text : String
  created_at : Int
deriving DecidableEq

/-- The first guard of `handleNewMessage`: `if (newMessage.id)`, then
`conversationMessages.some(msg => msg.id === newMessage.id)`. -/
def hasIdMatch (msgs : List ChatMsg) (m : ChatMsg) : Bool :=
  match m.id with
  | some i => msgs.any (fun x => x.id == some i)
  | none => false

/-- The second guard of `handleNewMessage`: a cached message with the same text,
sender and receiver whose creation timestamp lies within the 10-second
(10000 ms) window of the incoming one. -/
def hasContentMatch (msgs : List ChatMsg) (m : ChatMsg) : Bool :=
  msgs.any (fun x =>
    x.text == m.text && x.sender_id == m.sender_id && x.receiver_id == m.receiver_id &&
      decide ((x.created_at - m.created_at).natAbs < 10000))

/-- The dedup-guarded insert of `ChatProvider.tsx`'s `handleNewMessage`: keep
the bucket unchanged on an id match or a content match, otherwise append. -/
def handleNewMessage (msgs : List ChatMsg) (m : ChatMsg) : List ChatMsg :=
  if hasIdMatch msgs m then msgs
  else if hasContentMatch msgs m then msgs
  else msgs ++ [m]

/-- The per-conversation message cache `Map<string, Message[]>` held in the
provider state (absent key = empty list). -/
abbrev MessageCache := String → List ChatMsg

def emptyCache : MessageCache := fun _ => []

/-- The `setState` of the map: the current conversation's bucket goes through
`handleNewMessage`, every other bucket is untouched. -/
def cacheInsert (cache : MessageCache) (peer : String) (m : ChatMsg) : MessageCache :=
  fun v => if v = peer then handleNewMessage (cache peer) m else cache v

/-- The cache obtained by a sequence of dedup-guarded inserts starting from the
empty cache. -/
def cacheOfInserts (l : List (String × ChatMsg)) : MessageCache :=
  l.foldl (fun cache pm => cacheInsert cache pm.1 pm.2) emptyCache

/-- The duplicate predicate of spec §4.6: two messages are duplicates iff they
share a server-assigned id, or they agree on sender, receiver and text and
their creation timestamps differ by less than the 10-second tolerance. -/
def isDuplicate (a b : ChatMsg) : Prop :=
  (a.id ≠ none ∧ a.id = b.id) ∨
    (a.sender_id = b.sender_id ∧ a.receiver_id = b.receiver_id ∧ a.text = b.text ∧
      (a.created_at - b.created_at).natAbs < 10000)

/-- No two entries of a bucket satisfy the duplicate predicate. -/
def DedupInvariant (msgs : List ChatMsg) : Prop :=
  List.Pairwise (fun a b => ¬ isDuplicate a b) msgs

theorem handleNewMessage_dedup (msgs : List ChatMsg) (m : ChatMsg)
    (h : DedupInvariant msgs) : DedupInvariant (handleNewMessage msgs m) := by
  unfold handleNewMessage
  by_cases hid : hasIdMatch msgs m
  · rw [if_pos hid]; exact h
  · rw [if_neg hid]
    by_cases hct : hasContentMatch msgs m
    · rw [if_pos hct]; exact h
    · rw [if_neg hct]
      unfold DedupInvariant
      rw [List.pairwise_append]
      refine ⟨h, List.pairwise_singleton _ _, ?_⟩
      intro a ha b hb
      have hbm : b = m := by simpa using hb
      subst hbm
      intro hdup
      rcases hdup with ⟨hane, haid⟩ | ⟨hs, hr, ht, htime⟩
      · rcases hoption : a.id with _ | i
        · exact hane hoption
        · apply hid
          unfold hasIdMatch
          have hmid : b.id = some i := by rw [← haid, hoption]
          rw [hmid]
          simp only [List.any_eq_true]
          exact ⟨a, ha, by simp [hoption]⟩
      · apply hct
        unfold hasContentMatch
        simp only [List.any_eq_true]
        exact ⟨a, ha, by simp [hs, hr, ht, htime]⟩

theorem cacheInsert_dedup (cache : MessageCache) (peer : String) (m : ChatMsg)
    (h : ∀ p, DedupInvariant (cache p)) :
    ∀ p, DedupInvariant ((cacheInsert cache peer m) p) := by
  intro p
  unfold cacheInsert
  by_cases hp : p = peer
  · rw [if_pos hp]; exact handleNewMessage_dedup _ _ (h peer)
  · rw [if_neg hp]; exact h p

theorem foldl_cacheInsert_dedup :
    ∀ (l : List (String × ChatMsg)) (cache : MessageCache),
      (∀ p, DedupInvariant (cache p)) →
      ∀ p, DedupInvariant ((l.foldl (fun cache pm => cacheInsert cache pm.1 pm.2) cache) p) := by
  intro l
  induction l with
  | nil => intro cache h p; exact h p
  | cons pm rest ih =>
      intro cache h p
      simp only [List.foldl_cons]
      exact ih _ (cacheInsert_dedup cache pm.1 pm.2 h) p

/-- C3: after any sequence of dedup-guarded inserts into the client message
cache, no two entries of the same peer bucket satisfy the duplicate predicate
(shared server id, or identical sender/receiver/text with creation timestamps
within the 10-second window). -/
theorem cache_no_duplicates (l : List (String × ChatMsg)) (peer : String) :
    DedupInvariant ((cacheOfInserts l) peer) := by
  unfold cacheOfInserts
  exact foldl_cacheInsert_dedup l emptyCache
    (fun p => List.Pairwise.nil) peer

/-! ## Reconnection controller (`ChatService` fields `reconnectAttempts`,
`reconnectTimer`, `autoReconnect`, `isConnected`, with
`maxReconnectAttempts = 10` and `reconnectInterval = 2000`) -/

/-- The reconnection-relevant projection of a `ChatService` instance.
`reconnectTimer` holds the delay (ms, exact rational — every value the
JavaScript doubles take here is exactly representable) of the single pending
`setTimeout`, or `none` when no reconnect is scheduled. -/
structure SubscriberState where
  attempts : Nat
  reconnectTimer : Option ℚ
  autoReconnect : Bool
  isConnected : Bool
deriving DecidableEq

/-- Models `Math.min(30000, this.reconnectInterval * Math.pow(1.5, attempts - 1))`
for the incremented attempt counter `n`. -/
def reconnectDelay (n : Nat) : ℚ :=
  min 30000 (2000 * (3 / 2 : ℚ) ^ (n - 1))

/-- Models `handleDisconnect()`: below the cap, increment the attempt counter and
(after `clearReconnectTimer`) schedule the backoff delay; at the cap, schedule
the single long 60-second retry instead. -/
def handleDisconnect (s : SubscriberState) : SubscriberState :=
  if s.attempts < 10 then
    { s with attempts := s.attempts + 1,
             reconnectTimer := some (reconnectDelay (s.attempts + 1)) }
  else
    { s with reconnectTimer := some 60000 }

/-- Models `eventSource.onopen`: mark connected, reset the attempt counter to 0 and
clear any pending reconnect timer. -/
def onOpen (s : SubscriberState) : SubscriberState :=
  { s with isConnected := true, attempts := 0, reconnectTimer := none }

/-- Models `eventSource.onerror`: mark disconnected, and only when `autoReconnect`
is still set enter `handleDisconnect`. -/
def onError (s : SubscriberState) : SubscriberState :=
  let s1 := { s with isConnected := false }
  if s1.autoReconnect then handleDisconnect s1 else s1

/-- The body of the 60-second timer scheduled at the cap: the fired timer is
consumed, `reconnectAttempts` is reset to 0, and `handleDisconnect()` runs
again. -/
def fireLongRetry (s : SubscriberState) : SubscriberState :=
  handleDisconnect { s with attempts := 0, reconnectTimer := none }

/-- Models `disconnect()`: suppress auto-reconnect, drop the stream, clear the
pending reconnect timer. -/
def disconnect (s : SubscriberState) : SubscriberState :=
  { s with autoReconnect := false, isConnected := false, reconnectTimer := none }

/-- C5: entering the reconnecting phase with attempt count `n` (1 ≤ n ≤ 10)
schedules the delay `min(30 s, 2 s · 1.5^(n−1))`; the counter moves up by
exactly one per failed cycle and never beyond the cap of 10; a successful
`onOpen` transition resets it to 0 at once. -/
theorem backoff_schedule (s : SubscriberState) (n : Nat)
    (h1 : 1 ≤ n) (h2 : n ≤ 10) (ha : s.attempts = n - 1) :
    (handleDisconnect s).attempts = n ∧
    (handleDisconnect s).reconnectTimer = some (min 30000 (2000 * (3 / 2 : ℚ) ^ (n - 1))) ∧
    (∀ t : SubscriberState, t.attempts < 10 → (handleDisconnect t).attempts = t.attempts + 1) ∧
    (∀ t : SubscriberState, t.attempts ≤ 10 → (handleDisconnect t).attempts ≤ 10) ∧
    (∀ t : SubscriberState, (onOpen t).attempts = 0 ∧ (onOpen t).isConnected = true) := by
  have hlt : s.attempts < 10 := by omega
  refine ⟨?_, ?_, ?_, ?_, ?_⟩
  · simp only [handleDisconnect, if_pos hlt]
    omega
  · simp only [handleDisconnect, if_pos hlt, reconnectDelay]
    have : s.attempts + 1 = n := by omega
    rw [this]
  · intro t ht
    simp only [handleDisconnect, if_pos ht]
  · intro t ht
    unfold handleDisconnect
    by_cases hlt' : t.attempts < 10
    · rw [if_pos hlt']
      show t.attempts + 1 ≤ 10
      omega
    · rw [if_neg hlt']
      show t.attempts ≤ 10
      omega
  · intro t
    exact ⟨rfl, rfl⟩

/-- Closed witness for `backoff_schedule`: third failed cycle, delay
`2000 · 1.5² = 4500 ms`. -/
theorem backoff_schedule_witness :
    (1 ≤ 3 ∧ 3 ≤ 10 ∧ (2 : Nat) = 3 - 1) ∧
    ((handleDisconnect ⟨2, none, true, false⟩).attempts = 3 ∧
     (handleDisconnect ⟨2, none, true, false⟩).reconnectTimer =
       some (min 30000 (2000 * (3 / 2 : ℚ) ^ (3 - 1))) ∧
     (∀ t : SubscriberState, t.attempts < 10 → (handleDisconnect t).attempts = t.attempts + 1) ∧
     (∀ t : SubscriberState, t.attempts ≤ 10 → (handleDisconnect t).attempts ≤ 10) ∧
     (∀ t : SubscriberState, (onOpen t).attempts = 0 ∧ (onOpen t).isConnected = true)) :=
  ⟨⟨by decide, by decide, by decide⟩,
    backoff_schedule ⟨2, none, true, false⟩ 3 (by decide) (by decide) (by decide)⟩

/-- C6: at the cap the controller does not stop: `handleDisconnect` schedules
exactly one 60-second retry (the single timer slot), and when that timer fires
the attempt counter is reset to 0 and the fast schedule resumes with attempt 1
and its 2-second delay. -/
theorem long_interval_retry (s : SubscriberState) (h : ¬ s.attempts < 10) :
    (handleDisconnect s).reconnectTimer = some 60000 ∧
    (fireLongRetry (handleDisconnect s)).attempts = 0 + 1 ∧
    (fireLongRetry (handleDisconnect s)).reconnectTimer = some (reconnectDelay 1) ∧
    reconnectDelay 1 = 2000 := by
  refine ⟨?_, ?_, ?_, ?_⟩
  · simp only [handleDisconnect, if_neg h]
  · simp [fireLongRetry, handleDisconnect]
  · simp [fireLongRetry, handleDisconnect]
  · unfold reconnectDelay
    norm_num

/-- Closed witness for `long_interval_retry` at the exhausted state. -/
theorem long_interval_retry_witness :
    ¬ (10 : Nat) < 10 ∧
    ((handleDisconnect ⟨10, none, true, false⟩).reconnectTimer = some 60000 ∧
     (fireLongRetry (handleDisconnect ⟨10, none, true, false⟩)).attempts = 0 + 1 ∧
     (fireLongRetry (handleDisconnect ⟨10, none, true, false⟩)).reconnectTimer =
       some (reconnectDelay 1) ∧
     reconnectDelay 1 = 2000) :=
  ⟨by decide, long_interval_retry ⟨10, none, true, false⟩ (by decide)⟩

/-- C9: `disconnect()` clears the pending reconnect timer and sets the
suppression flag, and however many transport error events arrive afterwards
(before any fresh `connect()`), no reconnect timer is ever scheduled again and
the flag stays down. -/
theorem disconnect_suppresses_reconnect (s : SubscriberState) (n : Nat) :
    (disconnect s).reconnectTimer = none ∧
    (disconnect s).autoReconnect = false ∧
    (onError^[n] (disconnect s)).reconnectTimer = none ∧
    (onError^[n] (disconnect s)).autoReconnect = false := by
  refine ⟨rfl, rfl, ?_⟩
  have key : ∀ (t : SubscriberState), t.autoReconnect = false → t.reconnectTimer = none →
      ∀ m : Nat, (onError^[m] t).reconnectTimer = none ∧ (onError^[m] t).autoReconnect = false := by
    intro t hauto htimer m
    induction m generalizing t with
    | zero => exact ⟨htimer, hauto⟩
    | succ k ih =>
        rw [Function.iterate_succ_apply]
        apply ih
        · simp [onError, hauto]
        · simp [onError, hauto, htimer]
  exact key (disconnect s) rfl rfl n

/-! ## Listener registry and message dispatch (`ChatService.onNewMessage`,
`notifyMessageListeners`) -/

/-- Object identity of a `MessageListener` callback. -/
abbrev ListenerId := Nat

/-- The `messageListeners` map `Map<string, MessageListener[]>` keyed by
conversation id (absent key = empty array). -/
abbrev MessageListeners := String → List ListenerId

def emptyListeners : MessageListeners := fun _ => []

/-- Models `onNewMessage(conversationId, listener)`: push the listener onto the
key's array (duplicates allowed — `push` never checks membership). -/
def onNewMessage (L : MessageListeners) (conversationId : String) (f : ListenerId) :
    MessageListeners :=
  fun v => if v = conversationId then L conversationId ++ [f] else L v

/-- The unsubscribe closure returned by `onNewMessage`:
`updatedListeners.filter(l => l !== listener)` on the key's current array. -/
def unsubscribeNewMessage (L : MessageListeners) (conversationId : String) (f : ListenerId) :
    MessageListeners :=
  fun v => if v = conversationId then (L conversationId).filter (fun g => g != f) else L v

/-- Models `notifyMessageListeners(message)`: the sequence of listener invocations —
the listeners under the sender's id followed by those under the receiver's id. -/
def notifyMessageListeners (L : MessageListeners) (m : ChatMsg) : List ListenerId :=
  L m.sender_id ++ L m.receiver_id

/-- C7: dispatch reaches a listener exactly when it is registered under the
message's sender identity or its receiver identity — so a self-echoed copy of
the current user's own message (sender = current user) still reaches the
listener keyed by the peer (the receiver), and a peer's message reaches the
listener keyed by that peer (the sender). -/
theorem dispatch_reaches_both_identities (L : MessageListeners) (m : ChatMsg)
    (f : ListenerId) :
    f ∈ notifyMessageListeners L m ↔ f ∈ L m.sender_id ∨ f ∈ L m.receiver_id := by
  simp [notifyMessageListeners, List.mem_append]

/-- C10 counterexample: registering the same callback `5` twice under one key
and invoking one of the returned unsubscribe handles removes both instances —
not exactly one (which would leave `[5]`). -/
theorem unsubscribe_removes_all_instances_cex :
    (onNewMessage (onNewMessage emptyListeners "a" 5) "a" 5) "a" = [5, 5] ∧
    (unsubscribeNewMessage (onNewMessage (onNewMessage emptyListeners "a" 5) "a" 5) "a" 5) "a"
      = [] ∧
    ([] : List ListenerId) ≠ [5] := by
  refine ⟨by decide, by decide, by decide⟩

theorem filter_ne_length_add_count (f : ListenerId) :
    ∀ l : List ListenerId, (l.filter (fun g => g != f)).length + l.count f = l.length := by
  intro l
  induction l with
  | nil => rfl
  | cons a t ih =>
      by_cases ha : a = f
      · subst ha
        simp only [List.filter_cons, List.count_cons, List.length_cons]
        simp only [bne_self_eq_false, Bool.false_eq_true, ite_false, beq_self_eq_true,
          ite_true]
        omega
      · simp only [List.filter_cons, List.count_cons, List.length_cons]
        have h1 : (a != f) = true := by simpa using ha
        have h2 : (a == f) = false := by simpa using ha
        rw [h1, h2]
        simp only [ite_true, ite_false, List.length_cons, Bool.false_eq_true]
        omega

/-- C10 amended: registration appends the callback to the key's array (so
several listeners, including repeated registrations of one callback, coexist),
and the unsubscribe handle removes every instance identical to its callback —
all of its occurrences, callbacks of a different identity and other keys being
untouched; when the callback occurs exactly once, exactly one entry is
removed. -/
theorem listener_registry_amended (L : MessageListeners) (k kv : String)
    (f g : ListenerId) (hg : g ≠ f) (hkv : kv ≠ k) :
    (onNewMessage L k f) k = L k ++ [f] ∧
    (onNewMessage L k f) kv = L kv ∧
    ((unsubscribeNewMessage L k f) k).count f = 0 ∧
    ((unsubscribeNewMessage L k f) k).count g = (L k).count g ∧
    ((L k).count f = 1 → ((unsubscribeNewMessage L k f) k).length + 1 = (L k).length) ∧
    (unsubscribeNewMessage L k f) kv = L kv := by
  have hu : (unsubscribeNewMessage L k f) k = (L k).filter (fun g => g != f) := by
    simp [unsubscribeNewMessage]
  refine ⟨?_, ?_, ?_, ?_, ?_, ?_⟩
  · simp [onNewMessage]
  · simp [onNewMessage, hkv]
  · rw [hu, List.count_eq_zero]
    intro hmem
    have := List.of_mem_filter hmem
    simp at this
  · rw [hu]
    exact List.count_filter (by simpa using hg)
  · intro hone
    rw [hu]
    have := filter_ne_length_add_count f (L k)
    omega
  · simp [unsubscribeNewMessage, hkv]

/-- Closed witness for `listener_registry_amended` with callbacks `7 ≠ 9`,
keys `"a" ≠ "b"`, and `7` occurring exactly once under `"a"`. -/
theorem listener_registry_amended_witness :
    (9 : ListenerId) ≠ 7 ∧ ("b" : String) ≠ "a" ∧
    ((onNewMessage (onNewMessage emptyListeners "a" 9) "a" 7) "a" =
        (onNewMessage emptyListeners "a" 9) "a" ++ [7] ∧
     (onNewMessage (onNewMessage emptyListeners "a" 9) "a" 7) "b" =
        (onNewMessage emptyListeners "a" 9) "b" ∧
     ((unsubscribeNewMessage (onNewMessage emptyListeners "a" 9) "a" 7) "a").count 7 = 0 ∧
     ((unsubscribeNewMessage (onNewMessage emptyListeners "a" 9) "a" 7) "a").count 9 =
        ((onNewMessage emptyListeners "a" 9) "a").count 9 ∧
     (((onNewMessage emptyListeners "a" 9) "a").count 7 = 1 →
        ((unsubscribeNewMessage (onNewMessage emptyListeners "a" 9) "a" 7) "a").length + 1 =
          ((onNewMessage emptyListeners "a" 9) "a").length) ∧
     (unsubscribeNewMessage (onNewMessage emptyListeners "a" 9) "a" 7) "b" =
        (onNewMessage emptyListeners "a" 9) "b") :=
  ⟨by decide, by decide,
    listener_registry_amended (onNewMessage emptyListeners "a" 9) "a" "b" 7 9
      (by decide) (by decide)⟩

/-! ## Persisted message store and conversation aggregator
(`chatActions.ts`: `markAsRead`, `updateConversationsForUserInternal`) -/

/-- A row of the `Message` table: sender, receiver, text, creation time and
nullable read time (ms since epoch). -/
structure StoredMsg where
  sender : String
  receiver : String
  text : String
  createdAt : Int
  readAt : Option Int
deriving DecidableEq

abbrev MessageStore := List StoredMsg

/-- The unread condition of both `markAsRead`'s `updateMany.where` and the
`unreadCount` subquery of `updateConversationsForUserInternal`:
`senderId = peer AND receiverId = user AND readAt IS NULL`. -/
def isUnreadFrom (user peer : String) (m : StoredMsg) : Bool :=
  m.sender == peer && m.receiver == user && m.readAt == none

/-- The `unreadCount` column computed per peer by
`updateConversationsForUserInternal`'s query. -/
def unreadCount (store : MessageStore) (user peer : String) : Nat :=
  (store.filter (isUnreadFrom user peer)).length

/-- The `updateMany` of `markAsRead(otherUserId)`: set `readAt` on every message
from the peer to the reader that has none. -/
def markAsReadUpdate (store : MessageStore) (reader peer : String) (now : Int) :
    MessageStore :=
  store.map (fun m => if isUnreadFrom reader peer m then { m with readAt := some now } else m)

/-- Models `m."senderId" = user OR m."receiverId" = user` — the rows scanned for the
user's conversation list. -/
def involves (user : String) (m : StoredMsg) : Bool :=
  m.sender == user || m.receiver == user

/-- The partition key of the query:
`CASE WHEN senderId = user THEN receiverId ELSE senderId END`. -/
def otherParty (user : String) (m : StoredMsg) : String :=
  if m.sender == user then m.receiver else m.sender

/-- The distinct peers the query produces one ranked row (`rn = 1`) for. -/
def peersOf (store : MessageStore) (user : String) : List String :=
  ((store.filter (involves user)).map (otherParty user)).dedup

/-- The conversation recompute of `updateConversationsForUserInternal`,
projected to the pair (peer id, unread count) — the last-message payload and
display ordering of the query are not touched by the claims. One entry per
distinct peer. -/
def recompute (store : MessageStore) (user : String) : List (String × Nat) :=
  (peersOf store user).map (fun p => (p, unreadCount store user p))

/-- A mutation of the message store: `prisma.message.create` (append a new
row) or a `markAsRead` update. -/
inductive StoreOp where
  | newMsg (m : StoredMsg)
  | markRead (reader peer : String) (now : Int)

def applyStoreOp (store : MessageStore) : StoreOp → MessageStore
  | StoreOp.newMsg m => store ++ [m]
  | StoreOp.markRead reader peer now => markAsReadUpdate store reader peer now

def applyStoreOps (store : MessageStore) : List StoreOp → MessageStore
  | [] => store
  | op :: ops => applyStoreOps (applyStoreOp store op) ops

/-- The op that ends the claimed quiescent period: creating a message from
the peer to the user with no read timestamp. -/
def CreatesUnreadFrom (user peer : String) : StoreOp → Prop
  | StoreOp.newMsg m => isUnreadFrom user peer m = true
  | StoreOp.markRead _ _ _ => False

theorem unreadCount_eq_zero_iff (store : MessageStore) (user peer : String) :
    unreadCount store user peer = 0 ↔ ∀ m ∈ store, ¬ isUnreadFrom user peer m = true := by
  unfold unreadCount
  rw [List.length_eq_zero, List.filter_eq_nil_iff]

theorem markAsReadUpdate_unread_zero (store : MessageStore) (user peer : String)
    (now : Int) : unreadCount (markAsReadUpdate store user peer now) user peer = 0 := by
  rw [unreadCount_eq_zero_iff]
  intro m hm
  unfold markAsReadUpdate at hm
  rcases List.mem_map.1 hm with ⟨x, _, hx⟩
  by_cases hux : isUnreadFrom user peer x
  · rw [if_pos hux] at hx
    subst hx
    simp [isUnreadFrom]
  · rw [if_neg hux] at hx
    subst hx
    exact hux

theorem applyStoreOp_preserves_zero (store : MessageStore) (user peer : String)
    (op : StoreOp) (h0 : unreadCount store user peer = 0)
    (hop : ¬ CreatesUnreadFrom user peer op) :
    unreadCount (applyStoreOp store op) user peer = 0 := by
  cases op with
  | newMsg m =>
      rw [unreadCount_eq_zero_iff] at h0 ⊢
      intro x hx
      rcases List.mem_append.1 hx with hx' | hx'
      · exact h0 x hx'
      · have hxm : x = m := by simpa using hx'
        subst hxm
        exact hop
  | markRead reader p now =>
      rw [unreadCount_eq_zero_iff] at h0 ⊢
      intro x hx
      unfold applyStoreOp markAsReadUpdate at hx
      rcases List.mem_map.1 hx with ⟨y, hy, hyx⟩
      by_cases huy : isUnreadFrom reader p y
      · rw [if_pos huy] at hyx
        subst hyx
        simp [isUnreadFrom]
      · rw [if_neg huy] at hyx
        subst hyx
        exact h0 y hy

theorem applyStoreOps_preserves_zero (user peer : String) :
    ∀ (ops : List StoreOp) (store : MessageStore),
      unreadCount store user peer = 0 →
      (∀ op ∈ ops, ¬ CreatesUnreadFrom user peer op) →
      unreadCount (applyStoreOps store ops) user peer = 0 := by
  intro ops
  induction ops with
  | nil => intro store h0 _; exact h0
  | cons op rest ih =>
      intro store h0 hops
      exact ih _ (applyStoreOp_preserves_zero store user peer op h0
          (hops op (List.mem_cons_self op rest)))
        (fun o ho => hops o (List.mem_cons_of_mem op ho))

theorem recompute_snd (store : MessageStore) (user : String) (pr : String × Nat)
    (h : pr ∈ recompute store user) : pr.2 = unreadCount store user pr.1 := by
  unfold recompute at h
  rcases List.mem_map.1 h with ⟨p, _, hp⟩
  subst hp
  rfl

/-- C8: after `markAsRead(peer)` completes (setting the read timestamp on all
messages from the peer to the user that had none), the user's unread count for
that peer is 0, the peer's entry in the next conversation recompute carries 0,
and it stays 0 across any further store mutations — recomputes are pure, and
appends or read-marks that do not create an unread message from that peer keep
the count at 0. -/
theorem markAsRead_unread_zero (store : MessageStore) (user peer : String) (now : Int)
    (ops : List StoreOp) (hops : ∀ op ∈ ops, ¬ CreatesUnreadFrom user peer op) :
    unreadCount (markAsReadUpdate store user peer now) user peer = 0 ∧
    (∀ pr ∈ recompute (markAsReadUpdate store user peer now) user,
      pr.1 = peer → pr.2 = 0) ∧
    unreadCount (applyStoreOps (markAsReadUpdate store user peer now) ops) user peer = 0 ∧
    (∀ pr ∈ recompute (applyStoreOps (markAsReadUpdate store user peer now) ops) user,
      pr.1 = peer → pr.2 = 0) := by
  have h0 := markAsReadUpdate_unread_zero store user peer now
  have hlater := applyStoreOps_preserves_zero user peer ops
    (markAsReadUpdate store user peer now) h0 hops
  refine ⟨h0, ?_, hlater, ?_⟩
  · intro pr hpr hp
    rw [recompute_snd _ _ _ hpr, hp, h0]
  · intro pr hpr hp
    rw [recompute_snd _ _ _ hpr, hp, hlater]

/-- Closed witness for `markAsRead_unread_zero`: `"bob"` has sent `"alice"`
an unread message; after `markAsRead`, an already-read reply from `"bob"` and
a `markAsRead` in the other direction arrive. -/
theorem markAsRead_unread_zero_witness :
    (∀ op ∈ [StoreOp.newMsg ⟨"bob", "alice", "hi again", 2000, some 2500⟩,
             StoreOp.markRead "bob" "alice" 3000],
        ¬ CreatesUnreadFrom "alice" "bob" op) ∧
    (unreadCount
        (markAsReadUpdate [⟨"bob", "alice", "hi", 1000, none⟩] "alice" "bob" 1500)
        "alice" "bob" = 0 ∧
     (∀ pr ∈ recompute
          (markAsReadUpdate [⟨"bob", "alice", "hi", 1000, none⟩] "alice" "bob" 1500)
          "alice", pr.1 = "bob" → pr.2 = 0) ∧
     unreadCount
        (applyStoreOps
          (markAsReadUpdate [⟨"bob", "alice", "hi", 1000, none⟩] "alice" "bob" 1500)
          [StoreOp.newMsg ⟨"bob", "alice", "hi again", 2000, some 2500⟩,
           StoreOp.markRead "bob" "alice" 3000])
        "alice" "bob" = 0 ∧
     (∀ pr ∈ recompute
          (applyStoreOps
            (markAsReadUpdate [⟨"bob", "alice", "hi", 1000, none⟩] "alice" "bob" 1500)
            [StoreOp.newMsg ⟨"bob", "alice", "hi again", 2000, some 2500⟩,
             StoreOp.markRead "bob" "alice" 3000])
          "alice", pr.1 = "bob" → pr.2 = 0)) := by
  constructor
  · intro op hop
    rcases List.mem_cons.1 hop with rfl | hop'
    · simp [CreatesUnreadFrom, isUnreadFrom]
    · rcases List.mem_cons.1 hop' with rfl | hop''
      · simp [CreatesUnreadFrom]
      · cases hop''
  · exact markAsRead_unread_zero [⟨"bob", "alice", "hi", 1000, none⟩] "alice" "bob" 1500
      [StoreOp.newMsg ⟨"bob", "alice", "hi again", 2000, some 2500⟩,
       StoreOp.markRead "bob" "alice" 3000]
      (by
        intro op hop
        rcases List.mem_cons.1 hop with rfl | hop'
        · simp [CreatesUnreadFrom, isUnreadFrom]
        · rcases List.mem_cons.1 hop' with rfl | hop''
          · simp [CreatesUnreadFrom]
          · cases hop'')

end Serengpty
